import Mathlib

/-!
Verification of the roulette simulation engine: a shallow embedding of the
wheel emulator, payout calculator, table-driven bet-size state machine,
color-switch heuristic, simulation orchestrator, and the Monte Carlo streak
counter, with theorems about the behaviours claimed of them.

Money amounts are embedded as exact rationals; the two-decimal rounding of
the source is modelled by an explicit half-to-even rounding function.
-/

/-- Types of bets available in French Roulette. -/
inductive BetType where
  | STRAIGHT
  | SPLIT
  | STREET
  | CORNER
  | LINE
  | RED
  | BLACK
  | EVEN
  | ODD
  | LOW
  | HIGH
  | DOZEN_1
  | DOZEN_2
  | DOZEN_3
  | COLUMN_1
  | COLUMN_2
  | COLUMN_3
  | GREEN
deriving DecidableEq

/-- The red numbers of the wheel. -/
def RED_NUMBERS : Finset ℕ :=
  {1, 3, 5, 7, 9, 12, 14, 16, 18, 19, 21, 23, 25, 27, 30, 32, 34, 36}

/-- The black numbers of the wheel (all non-red, non-zero numbers). -/
def BLACK_NUMBERS : Finset ℕ :=
  {2, 4, 6, 8, 10, 11, 13, 15, 17, 20, 22, 24, 26, 28, 29, 31, 33, 35}

/-- Whether a bet of the given type on the given numbers wins on a result;
the final catch-all (reached only for GREEN, which has no branch) is false. -/
def check_bet (bt : BetType) (nums : List ℕ) (result : ℕ) : Bool :=
  match bt with
  | BetType.STRAIGHT => decide (result ∈ nums)
  | BetType.SPLIT => decide (result ∈ nums)
  | BetType.STREET => decide (result ∈ nums)
  | BetType.CORNER => decide (result ∈ nums)
  | BetType.LINE => decide (result ∈ nums)
  | BetType.RED => decide (result ∈ RED_NUMBERS)
  | BetType.BLACK => decide (result ∈ BLACK_NUMBERS)
  | BetType.EVEN => decide (result ≠ 0 ∧ result % 2 = 0)
  | BetType.ODD => decide (result ≠ 0 ∧ result % 2 = 1)
  | BetType.LOW => decide (1 ≤ result ∧ result ≤ 18)
  | BetType.HIGH => decide (19 ≤ result ∧ result ≤ 36)
  | BetType.DOZEN_1 => decide (1 ≤ result ∧ result ≤ 12)
  | BetType.DOZEN_2 => decide (13 ≤ result ∧ result ≤ 24)
  | BetType.DOZEN_3 => decide (25 ≤ result ∧ result ≤ 36)
  | BetType.COLUMN_1 => decide (result % 3 = 1 ∧ result ≠ 0)
  | BetType.COLUMN_2 => decide (result % 3 = 2 ∧ result ≠ 0)
  | BetType.COLUMN_3 => decide (result % 3 = 0 ∧ result ≠ 0)
  | BetType.GREEN => false

/-- The payout multiplier dictionary; none for a bet type missing from it
(a KeyError in the source). -/
def get_payout_multiplier (bt : BetType) : Option ℚ :=
  match bt with
  | BetType.STRAIGHT => some 36
  | BetType.SPLIT => some 18
  | BetType.STREET => some 12
  | BetType.CORNER => some 9
  | BetType.LINE => some 6
  | BetType.RED => some 2
  | BetType.BLACK => some 2
  | BetType.EVEN => some 2
  | BetType.ODD => some 2
  | BetType.LOW => some 2
  | BetType.HIGH => some 2
  | BetType.DOZEN_1 => some 3
  | BetType.DOZEN_2 => some 3
  | BetType.DOZEN_3 => some 3
  | BetType.COLUMN_1 => some 3
  | BetType.COLUMN_2 => some 3
  | BetType.COLUMN_3 => some 3
  | BetType.GREEN => none

/-- Whether a bet is an even-money bet (affected by the La Partage rule). -/
def is_even_money_bet (bt : BetType) : Bool :=
  decide (bt ∈ [BetType.RED, BetType.BLACK, BetType.EVEN,
                BetType.ODD, BetType.LOW, BetType.HIGH])

/-- Net profit or loss of a bet; none models an exception escaping from the
multiplier lookup. -/
def calculate_payout (bt : BetType) (amount : ℚ) (nums : List ℕ)
    (result : ℕ) (la_partage : Bool) : Option ℚ :=
  if result = 0 ∧ is_even_money_bet bt = true ∧ la_partage = true then
    some (-(amount / 2))
  else if check_bet bt nums result = true then
    (get_payout_multiplier bt).map (fun m => amount * (m - 1))
  else
    some (-amount)

/-- Color classification of a wheel number. -/
def get_color (n : ℕ) : BetType :=
  if n = 0 then BetType.GREEN
  else if n ∈ RED_NUMBERS then BetType.RED
  else BetType.BLACK

/-- C8: every outcome in 0..36 is assigned exactly one color by get_color
(zero is green, the red set gives red, the black set gives black), the red
and black sets are disjoint with 18 elements each, and together with zero
they partition the outcome interval. -/
theorem get_color_partition :
    (∀ n : Fin 37,
      (get_color n.val = BetType.GREEN ↔ n.val = 0) ∧
      (get_color n.val = BetType.RED ↔ n.val ∈ RED_NUMBERS) ∧
      (get_color n.val = BetType.BLACK ↔ n.val ∈ BLACK_NUMBERS)) ∧
    RED_NUMBERS ∩ BLACK_NUMBERS = ∅ ∧
    RED_NUMBERS.card = 18 ∧ BLACK_NUMBERS.card = 18 ∧
    insert 0 (RED_NUMBERS ∪ BLACK_NUMBERS) = Finset.range 37 := by
  decide

/-- C5: on outcome zero, every even-money bet loses half the stake with the
half-loss rule enabled and the whole stake with it disabled. -/
theorem la_partage_even_money (bt : BetType) (stake : ℚ) (nums : List ℕ)
    (h : is_even_money_bet bt = true) :
    calculate_payout bt stake nums 0 true = some (-(stake / 2)) ∧
    calculate_payout bt stake nums 0 false = some (-stake) := by
  have h0r : (0 : ℕ) ∉ RED_NUMBERS := by decide
  have h0b : (0 : ℕ) ∉ BLACK_NUMBERS := by decide
  cases bt <;> simp_all [calculate_payout, check_bet, is_even_money_bet]

/-- Witness for la_partage_even_money at bet RED with stake 10. -/
theorem la_partage_even_money_witness :
    calculate_payout BetType.RED 10 [] 0 true = some (-(10 / 2 : ℚ)) ∧
    calculate_payout BetType.RED 10 [] 0 false = some (-10 : ℚ) :=
  la_partage_even_money BetType.RED 10 [] (by decide)

/-- C10: a GREEN bet never wins and never raises: check_bet has no GREEN
branch, the multiplier dictionary has no GREEN key, and the payout is the
full lost stake for every outcome and either half-loss setting. -/
theorem green_bet_total_loss (stake : ℚ) (nums : List ℕ) (o : ℕ)
    (h : o ≤ 36) (lp : Bool) :
    check_bet BetType.GREEN nums o = false ∧
    get_payout_multiplier BetType.GREEN = none ∧
    calculate_payout BetType.GREEN stake nums o lp = some (-stake) := by
  refine ⟨rfl, rfl, ?_⟩
  simp [calculate_payout, check_bet, is_even_money_bet]

/-- Witness for green_bet_total_loss at stake 7, outcome 0, half-loss on. -/
theorem green_bet_total_loss_witness :
    check_bet BetType.GREEN [0] 0 = false ∧
    get_payout_multiplier BetType.GREEN = none ∧
    calculate_payout BetType.GREEN 7 [0] 0 true = some (-7 : ℚ) :=
  green_bet_total_loss 7 [0] 0 (by decide) true

/-- The wheel emulator state: outcome history, the optional replay sequence
(empty when absent), the cyclic read cursor, and a spin counter that the
constructor initialises to one. -/
structure Emu where
  history : List ℕ
  random_numbers : List ℕ
  random_index : ℕ
  spin_count : ℕ

/-- A freshly constructed emulator with a replay sequence. -/
def Emu.init (rns : List ℕ) : Emu :=
  { history := [], random_numbers := rns, random_index := 0, spin_count := 1 }

/-- One spin of the wheel; with a non-empty replay sequence the outcome is
read at index spin_count mod length, otherwise it is the external random
draw.  The outcome is appended to the history and the counter incremented
before returning. -/
def Emu.spinWith (e : Emu) (draw : ℕ) : ℕ × Emu :=
  if 0 < e.random_numbers.length then
    let idx := e.spin_count % e.random_numbers.length
    let r := e.random_numbers.getD idx 0
    (r, { e with history := e.history ++ [r], random_index := idx,
                 spin_count := e.spin_count + 1 })
  else
    (draw, { e with history := e.history ++ [draw],
                    spin_count := e.spin_count + 1 })

/-- C2: on the replay sequence 10, 25, 34, 5, 18 the first spin returns 25,
the element at index 1, not the element 10 at index 0 mod 5 that the claim
and the repository's own unit tests expect; the spin counter starts at one,
so every spin reads one position past the claimed index.  History append
and counter increment do happen before returning. -/
theorem replay_first_spin_mismatch :
    ((Emu.init [10, 25, 34, 5, 18]).spinWith 0).1 = 25 ∧
    ((Emu.init [10, 25, 34, 5, 18]).spinWith 0).2.history = [25] ∧
    ((Emu.init [10, 25, 34, 5, 18]).spinWith 0).2.spin_count = 2 ∧
    [10, 25, 34, 5, 18].getD (0 % 5) 0 = 10 := by
  decide

/-- A red-to-black or black-to-red spin-count ratio: the sentinel infinite
value when the denominator count is zero, else an exact rational. -/
inductive RatioVal where
  | inf
  | val (q : ℚ)

/-- Comparison of a ratio against a finite threshold; the infinite sentinel
exceeds every threshold. -/
def RatioVal.atLeast (r : RatioVal) (t : ℚ) : Bool :=
  match r with
  | RatioVal.inf => true
  | RatioVal.val q => decide (t ≤ q)

/-- Ratio of black to red spin counts. -/
def get_black_red_ratio (redCount blackCount : ℕ) : RatioVal :=
  if redCount = 0 then RatioVal.inf
  else RatioVal.val ((blackCount : ℚ) / (redCount : ℚ))

/-- Ratio of red to black spin counts. -/
def get_red_black_ratio (redCount blackCount : ℕ) : RatioVal :=
  if blackCount = 0 then RatioVal.inf
  else RatioVal.val ((redCount : ℚ) / (blackCount : ℚ))

/-- The dominance-switch threshold of the simulation. -/
def SWITCH_RATIO_THRESHOLD : ℚ := 3 / 2

/-- The dominance switch: once twelve spins have elapsed, a red bet whose
red-to-black count ratio reaches the threshold flips to black with the same
stake, a black bet whose black-to-red count ratio reaches the threshold
flips to red with the same stake; otherwise the bet tuple is unchanged. -/
def get_next_color_bet (spins : ℕ) (bt : BetType × ℚ × List ℕ)
    (redCount blackCount : ℕ) : BetType × ℚ × List ℕ :=
  if bt.1 = BetType.RED ∧ 12 ≤ spins ∧
      (get_red_black_ratio redCount blackCount).atLeast SWITCH_RATIO_THRESHOLD = true then
    (BetType.BLACK, bt.2.1, [])
  else if bt.1 = BetType.BLACK ∧ 12 ≤ spins ∧
      (get_black_red_ratio redCount blackCount).atLeast SWITCH_RATIO_THRESHOLD = true then
    (BetType.RED, bt.2.1, [])
  else bt

theorem ratio_threshold_iff (num den : ℕ) (hd : den ≠ 0) :
    RatioVal.atLeast (RatioVal.val ((num : ℚ) / (den : ℚ))) SWITCH_RATIO_THRESHOLD = true ↔
      3 * den ≤ 2 * num := by
  have hd' : (0 : ℚ) < (den : ℚ) := by
    exact_mod_cast Nat.pos_of_ne_zero hd
  rw [RatioVal.atLeast, decide_eq_true_eq, SWITCH_RATIO_THRESHOLD, le_div_iff hd']
  constructor
  · intro h
    have h2 : ((3 * den : ℕ) : ℚ) ≤ ((2 * num : ℕ) : ℚ) := by push_cast; linarith
    exact_mod_cast h2
  · intro h
    have h2 : ((3 * den : ℕ) : ℚ) ≤ ((2 * num : ℕ) : ℚ) := by exact_mod_cast h
    push_cast at h2
    linarith

/-- C1 counterexample: at spin 12 with 2 reds and 3 blacks and a red bet,
the non-target-to-target ratio (black over red) is 3/2 and reaches the
threshold, yet the code leaves the bet on red, because it compares the
target-to-non-target ratio (red over black, here 2/3) instead. -/
theorem dominance_switch_counterexample :
    (get_black_red_ratio 2 3).atLeast SWITCH_RATIO_THRESHOLD = true ∧
    get_next_color_bet 12 (BetType.RED, 6 / 5, []) 2 3 = (BetType.RED, 6 / 5, []) ∧
    ¬ get_next_color_bet 12 (BetType.RED, 6 / 5, []) 2 3 = (BetType.BLACK, 6 / 5, []) := by
  have h1 : (get_black_red_ratio 2 3).atLeast SWITCH_RATIO_THRESHOLD = true := by
    rw [get_black_red_ratio, if_neg (by norm_num), RatioVal.atLeast, decide_eq_true_eq,
        SWITCH_RATIO_THRESHOLD]
    norm_num
  have hrb : ¬ (get_red_black_ratio 2 3).atLeast SWITCH_RATIO_THRESHOLD = true := by
    rw [get_red_black_ratio, if_neg (by norm_num), RatioVal.atLeast, decide_eq_true_eq,
        SWITCH_RATIO_THRESHOLD]
    norm_num
  have hn1 : ¬ ((BetType.RED, (6 / 5 : ℚ), ([] : List ℕ)).1 = BetType.RED ∧ 12 ≤ 12 ∧
      (get_red_black_ratio 2 3).atLeast SWITCH_RATIO_THRESHOLD = true) :=
    fun hcon => hrb hcon.2.2
  have hn2 : ¬ ((BetType.RED, (6 / 5 : ℚ), ([] : List ℕ)).1 = BetType.BLACK ∧ 12 ≤ 12 ∧
      (get_black_red_ratio 2 3).atLeast SWITCH_RATIO_THRESHOLD = true) :=
    fun hcon => BetType.noConfusion hcon.1
  have h3 : get_next_color_bet 12 (BetType.RED, 6 / 5, []) 2 3 = (BetType.RED, 6 / 5, []) := by
    rw [get_next_color_bet, if_neg hn1, if_neg hn2]
  refine ⟨h1, h3, ?_⟩
  rw [h3]
  simp

/-- C1 amended: once at least 12 spins have elapsed, the next-color-bet
computation flips the target color, keeping the stake, exactly when the
ratio of the TARGET color's running count to the non-target color's count
reaches or exceeds the threshold 3/2 (with a zero non-target count treated
as an infinite ratio); below the threshold the bet tuple is unchanged. -/
theorem dominance_switch_flips_on_target_dominance (spins red black : ℕ)
    (amt : ℚ) (nums : List ℕ) (h12 : 12 ≤ spins) :
    (black = 0 ∨ 3 * black ≤ 2 * red →
       get_next_color_bet spins (BetType.RED, amt, nums) red black
         = (BetType.BLACK, amt, [])) ∧
    (black ≠ 0 → 2 * red < 3 * black →
       get_next_color_bet spins (BetType.RED, amt, nums) red black
         = (BetType.RED, amt, nums)) ∧
    (red = 0 ∨ 3 * red ≤ 2 * black →
       get_next_color_bet spins (BetType.BLACK, amt, nums) red black
         = (BetType.RED, amt, [])) ∧
    (red ≠ 0 → 2 * black < 3 * red →
       get_next_color_bet spins (BetType.BLACK, amt, nums) red black
         = (BetType.BLACK, amt, nums)) := by
  refine ⟨?_, ?_, ?_, ?_⟩
  · intro hcond
    have hat : (get_red_black_ratio red black).atLeast SWITCH_RATIO_THRESHOLD = true := by
      rcases Nat.eq_zero_or_pos black with hb | hb
      · simp [get_red_black_ratio, hb, RatioVal.atLeast]
      · have hb' : black ≠ 0 := Nat.pos_iff_ne_zero.mp hb
        rcases hcond with hc | hc
        · exact absurd hc hb'
        · rw [get_red_black_ratio, if_neg hb']
          exact (ratio_threshold_iff red black hb').mpr hc
    rw [get_next_color_bet, if_pos ⟨rfl, h12, hat⟩]
  · intro hb hlt
    have hat : ¬ (get_red_black_ratio red black).atLeast SWITCH_RATIO_THRESHOLD = true := by
      rw [get_red_black_ratio, if_neg hb]
      intro hc
      have := (ratio_threshold_iff red black hb).mp hc
      omega
    have hn1 : ¬ ((BetType.RED, amt, nums).1 = BetType.RED ∧ 12 ≤ spins ∧
        (get_red_black_ratio red black).atLeast SWITCH_RATIO_THRESHOLD = true) :=
      fun hcon => hat hcon.2.2
    have hn2 : ¬ ((BetType.RED, amt, nums).1 = BetType.BLACK ∧ 12 ≤ spins ∧
        (get_black_red_ratio red black).atLeast SWITCH_RATIO_THRESHOLD = true) :=
      fun hcon => BetType.noConfusion hcon.1
    rw [get_next_color_bet, if_neg hn1, if_neg hn2]
  · intro hcond
    have hat : (get_black_red_ratio red black).atLeast SWITCH_RATIO_THRESHOLD = true := by
      rcases Nat.eq_zero_or_pos red with hr | hr
      · simp [get_black_red_ratio, hr, RatioVal.atLeast]
      · have hr' : red ≠ 0 := Nat.pos_iff_ne_zero.mp hr
        rcases hcond with hc | hc
        · exact absurd hc hr'
        · rw [get_black_red_ratio, if_neg hr']
          exact (ratio_threshold_iff black red hr').mpr hc
    have hn1 : ¬ ((BetType.BLACK, amt, nums).1 = BetType.RED ∧ 12 ≤ spins ∧
        (get_red_black_ratio red black).atLeast SWITCH_RATIO_THRESHOLD = true) :=
      fun hcon => BetType.noConfusion hcon.1
    rw [get_next_color_bet, if_neg hn1, if_pos ⟨rfl, h12, hat⟩]
  · intro hr hlt
    have hat : ¬ (get_black_red_ratio red black).atLeast SWITCH_RATIO_THRESHOLD = true := by
      rw [get_black_red_ratio, if_neg hr]
      intro hc
      have := (ratio_threshold_iff black red hr).mp hc
      omega
    have hn1 : ¬ ((BetType.BLACK, amt, nums).1 = BetType.RED ∧ 12 ≤ spins ∧
        (get_red_black_ratio red black).atLeast SWITCH_RATIO_THRESHOLD = true) :=
      fun hcon => BetType.noConfusion hcon.1
    have hn2 : ¬ ((BetType.BLACK, amt, nums).1 = BetType.BLACK ∧ 12 ≤ spins ∧
        (get_black_red_ratio red black).atLeast SWITCH_RATIO_THRESHOLD = true) :=
      fun hcon => hat hcon.2.2
    rw [get_next_color_bet, if_neg hn1, if_neg hn2]

/-- Witness for dominance_switch_flips_on_target_dominance: at spin 12 with
3 reds and 2 blacks, a red bet of stake 1 flips to black with stake 1. -/
theorem dominance_switch_flips_witness :
    get_next_color_bet 12 (BetType.RED, 1, []) 3 2 = (BetType.BLACK, 1, []) :=
  (dominance_switch_flips_on_target_dominance 12 3 2 1 [] (by decide)).1
    (Or.inr (by decide))

/-- The bet adjustment table: ranges of bet magnitudes with the step used
inside each range, as exact rationals (0.20-0.90 step 0.10, and so on). -/
def ADJUSTMENT_TABLE : List (ℚ × ℚ × ℚ) :=
  [(1/5, 9/10, 1/10), (1, 9/5, 1/5), (2, 18/5, 2/5), (4, 36/5, 4/5),
   (8, 64/5, 6/5), (14, 22, 2), (24, 44, 4)]

/-- Rounding to two decimal places with ties going to the even cent,
matching the rounding of the source language. -/
def round2 (q : ℚ) : ℚ :=
  ((if q * 100 - ⌊q * 100⌋ < 1 / 2 then ⌊q * 100⌋
    else if 1 / 2 < q * 100 - ⌊q * 100⌋ then ⌊q * 100⌋ + 1
    else if ⌊q * 100⌋ % 2 = 0 then ⌊q * 100⌋ else ⌊q * 100⌋ + 1 : ℤ) : ℚ) / 100

theorem round2_gt (q : ℚ) : q - 1 / 100 < round2 q := by
  rw [round2]
  have hf : q * 100 - 1 < (⌊q * 100⌋ : ℚ) := Int.sub_one_lt_floor (q * 100)
  split_ifs <;> push_cast <;> linarith

/-- Step lookup for the increase rule: the first range of the table whose
closed interval contains the magnitude; none models the range error. -/
def adjustmentFor : List (ℚ × ℚ × ℚ) → ℚ → Option ℚ
  | [], _ => none
  | (mn, mx, adj) :: rest, cur =>
      if mn ≤ cur ∧ cur ≤ mx then some adj else adjustmentFor rest cur

/-- The adjustment for the current bet, or a range error. -/
def get_next_bet_adjustment (cur : ℚ) : Option ℚ :=
  adjustmentFor ADJUSTMENT_TABLE cur

/-- Bet increase on loss: add the containing range's step and round. -/
def get_bet_increase (cur : ℚ) : Option ℚ :=
  (get_next_bet_adjustment cur).map (fun adj => round2 (cur + adj))

/-- The scan of the decrease rule over the table: at an exact lower bound
the previous entry's step is recorded (the entry's own step for the first
entry), strictly inside a range the range's own step; the scan keeps the
last recorded value, zero when nothing matched. -/
def decScan (cur : ℚ) : Option ℚ → ℚ → List (ℚ × ℚ × ℚ) → ℚ
  | _, acc, [] => acc
  | prev, acc, (mn, mx, adj) :: rest =>
      decScan cur (some adj)
        (if mn = cur then prev.getD adj
         else if mn < cur ∧ cur ≤ mx then adj else acc) rest

/-- Bet decrease on win: subtract the step recorded by the scan and round;
a zero recorded step means no range matched and is the range error. -/
def get_bet_decrease (cur : ℚ) : Option ℚ :=
  if decScan cur none 0 ADJUSTMENT_TABLE = 0 then none
  else some (round2 (cur - decScan cur none 0 ADJUSTMENT_TABLE))

theorem decScan_cons_skip (cur : ℚ) (prev : Option ℚ) (acc : ℚ) (mn mx adj : ℚ)
    (rest : List (ℚ × ℚ × ℚ)) (h1 : ¬ mn = cur) (h2 : ¬ (mn < cur ∧ cur ≤ mx)) :
    decScan cur prev acc ((mn, mx, adj) :: rest) = decScan cur (some adj) acc rest := by
  rw [decScan, if_neg h1, if_neg h2]

theorem decScan_cons_inside (cur : ℚ) (prev : Option ℚ) (acc : ℚ) (mn mx adj : ℚ)
    (rest : List (ℚ × ℚ × ℚ)) (h1 : ¬ mn = cur) (h2 : mn < cur ∧ cur ≤ mx) :
    decScan cur prev acc ((mn, mx, adj) :: rest) = decScan cur (some adj) adj rest := by
  rw [decScan, if_neg h1, if_pos h2]

theorem decScan_noMatch (cur acc : ℚ) (prev : Option ℚ) (l : List (ℚ × ℚ × ℚ))
    (h : ∀ e ∈ l, ¬ e.1 = cur ∧ ¬ (e.1 < cur ∧ cur ≤ e.2.1)) :
    decScan cur prev acc l = acc := by
  induction l generalizing prev with
  | nil => rfl
  | cons e rest ih =>
    obtain ⟨mn, mx, adj⟩ := e
    obtain ⟨h1, h2⟩ := h (mn, mx, adj) (List.mem_cons_self _ _)
    rw [decScan, if_neg h1, if_neg h2]
    exact ih _ (fun e he => h e (List.mem_cons_of_mem _ he))

theorem dec_inside_0 (m : ℚ) (h1 : (1/5 : ℚ) < m) (h2 : m ≤ 9/10) :
    get_bet_decrease m = some (round2 (m - 1/10)) := by
  have cE0 : ¬ ((1/5 : ℚ) = m) := by intro hc; linarith
  have cE1 : ¬ ((1 : ℚ) = m) := by intro hc; linarith
  have cI1 : ¬ ((1 : ℚ) < m ∧ m ≤ 9/5) := by rintro ⟨a, b⟩; linarith
  have cE2 : ¬ ((2 : ℚ) = m) := by intro hc; linarith
  have cI2 : ¬ ((2 : ℚ) < m ∧ m ≤ 18/5) := by rintro ⟨a, b⟩; linarith
  have cE3 : ¬ ((4 : ℚ) = m) := by intro hc; linarith
  have cI3 : ¬ ((4 : ℚ) < m ∧ m ≤ 36/5) := by rintro ⟨a, b⟩; linarith
  have cE4 : ¬ ((8 : ℚ) = m) := by intro hc; linarith
  have cI4 : ¬ ((8 : ℚ) < m ∧ m ≤ 64/5) := by rintro ⟨a, b⟩; linarith
  have cE5 : ¬ ((14 : ℚ) = m) := by intro hc; linarith
  have cI5 : ¬ ((14 : ℚ) < m ∧ m ≤ 22) := by rintro ⟨a, b⟩; linarith
  have cE6 : ¬ ((24 : ℚ) = m) := by intro hc; linarith
  have cI6 : ¬ ((24 : ℚ) < m ∧ m ≤ 44) := by rintro ⟨a, b⟩; linarith
  have e1 : decScan m none 0 ADJUSTMENT_TABLE = 1/10 := by
    rw [ADJUSTMENT_TABLE]
    rw [decScan_cons_inside _ _ _ _ _ _ _ cE0 ⟨h1, h2⟩]
    rw [decScan_noMatch]
    intro e he
    simp only [List.mem_cons, List.not_mem_nil, or_false] at he
    rcases he with rfl | rfl | rfl | rfl | rfl | rfl
    case _ => exact ⟨cE1, cI1⟩
    case _ => exact ⟨cE2, cI2⟩
    case _ => exact ⟨cE3, cI3⟩
    case _ => exact ⟨cE4, cI4⟩
    case _ => exact ⟨cE5, cI5⟩
    case _ => exact ⟨cE6, cI6⟩
  have hne : ¬ decScan m none 0 ADJUSTMENT_TABLE = 0 := by rw [e1]; norm_num
  rw [get_bet_decrease, if_neg hne, e1]

theorem dec_inside_1 (m : ℚ) (h1 : (1 : ℚ) < m) (h2 : m ≤ 9/5) :
    get_bet_decrease m = some (round2 (m - 1/5)) := by
  have cE0 : ¬ ((1/5 : ℚ) = m) := by intro hc; linarith
  have cI0 : ¬ ((1/5 : ℚ) < m ∧ m ≤ 9/10) := by rintro ⟨a, b⟩; linarith
  have cE1 : ¬ ((1 : ℚ) = m) := by intro hc; linarith
  have cE2 : ¬ ((2 : ℚ) = m) := by intro hc; linarith
  have cI2 : ¬ ((2 : ℚ) < m ∧ m ≤ 18/5) := by rintro ⟨a, b⟩; linarith
  have cE3 : ¬ ((4 : ℚ) = m) := by intro hc; linarith
  have cI3 : ¬ ((4 : ℚ) < m ∧ m ≤ 36/5) := by rintro ⟨a, b⟩; linarith
  have cE4 : ¬ ((8 : ℚ) = m) := by intro hc; linarith
  have cI4 : ¬ ((8 : ℚ) < m ∧ m ≤ 64/5) := by rintro ⟨a, b⟩; linarith
  have cE5 : ¬ ((14 : ℚ) = m) := by intro hc; linarith
  have cI5 : ¬ ((14 : ℚ) < m ∧ m ≤ 22) := by rintro ⟨a, b⟩; linarith
  have cE6 : ¬ ((24 : ℚ) = m) := by intro hc; linarith
  have cI6 : ¬ ((24 : ℚ) < m ∧ m ≤ 44) := by rintro ⟨a, b⟩; linarith
  have e1 : decScan m none 0 ADJUSTMENT_TABLE = 1/5 := by
    rw [ADJUSTMENT_TABLE]
    rw [decScan_cons_skip _ _ _ _ _ _ _ cE0 cI0]
    rw [decScan_cons_inside _ _ _ _ _ _ _ cE1 ⟨h1, h2⟩]
    rw [decScan_noMatch]
    intro e he
    simp only [List.mem_cons, List.not_mem_nil, or_false] at he
    rcases he with rfl | rfl | rfl | rfl | rfl
    case _ => exact ⟨cE2, cI2⟩
    case _ => exact ⟨cE3, cI3⟩
    case _ => exact ⟨cE4, cI4⟩
    case _ => exact ⟨cE5, cI5⟩
    case _ => exact ⟨cE6, cI6⟩
  have hne : ¬ decScan m none 0 ADJUSTMENT_TABLE = 0 := by rw [e1]; norm_num
  rw [get_bet_decrease, if_neg hne, e1]

theorem dec_inside_2 (m : ℚ) (h1 : (2 : ℚ) < m) (h2 : m ≤ 18/5) :
    get_bet_decrease m = some (round2 (m - 2/5)) := by
  have cE0 : ¬ ((1/5 : ℚ) = m) := by intro hc; linarith
  have cI0 : ¬ ((1/5 : ℚ) < m ∧ m ≤ 9/10) := by rintro ⟨a, b⟩; linarith
  have cE1 : ¬ ((1 : ℚ) = m) := by intro hc; linarith
  have cI1 : ¬ ((1 : ℚ) < m ∧ m ≤ 9/5) := by rintro ⟨a, b⟩; linarith
  have cE2 : ¬ ((2 : ℚ) = m) := by intro hc; linarith
  have cE3 : ¬ ((4 : ℚ) = m) := by intro hc; linarith
  have cI3 : ¬ ((4 : ℚ) < m ∧ m ≤ 36/5) := by rintro ⟨a, b⟩; linarith
  have cE4 : ¬ ((8 : ℚ) = m) := by intro hc; linarith
  have cI4 : ¬ ((8 : ℚ) < m ∧ m ≤ 64/5) := by rintro ⟨a, b⟩; linarith
  have cE5 : ¬ ((14 : ℚ) = m) := by intro hc; linarith
  have cI5 : ¬ ((14 : ℚ) < m ∧ m ≤ 22) := by rintro ⟨a, b⟩; linarith
  have cE6 : ¬ ((24 : ℚ) = m) := by intro hc; linarith
  have cI6 : ¬ ((24 : ℚ) < m ∧ m ≤ 44) := by rintro ⟨a, b⟩; linarith
  have e1 : decScan m none 0 ADJUSTMENT_TABLE = 2/5 := by
    rw [ADJUSTMENT_TABLE]
    rw [decScan_cons_skip _ _ _ _ _ _ _ cE0 cI0]
    rw [decScan_cons_skip _ _ _ _ _ _ _ cE1 cI1]
    rw [decScan_cons_inside _ _ _ _ _ _ _ cE2 ⟨h1, h2⟩]
    rw [decScan_noMatch]
    intro e he
    simp only [List.mem_cons, List.not_mem_nil, or_false] at he
    rcases he with rfl | rfl | rfl | rfl
    case _ => exact ⟨cE3, cI3⟩
    case _ => exact ⟨cE4, cI4⟩
    case _ => exact ⟨cE5, cI5⟩
    case _ => exact ⟨cE6, cI6⟩
  have hne : ¬ decScan m none 0 ADJUSTMENT_TABLE = 0 := by rw [e1]; norm_num
  rw [get_bet_decrease, if_neg hne, e1]

theorem dec_inside_3 (m : ℚ) (h1 : (4 : ℚ) < m) (h2 : m ≤ 36/5) :
    get_bet_decrease m = some (round2 (m - 4/5)) := by
  have cE0 : ¬ ((1/5 : ℚ) = m) := by intro hc; linarith
  have cI0 : ¬ ((1/5 : ℚ) < m ∧ m ≤ 9/10) := by rintro ⟨a, b⟩; linarith
  have cE1 : ¬ ((1 : ℚ) = m) := by intro hc; linarith
  have cI1 : ¬ ((1 : ℚ) < m ∧ m ≤ 9/5) := by rintro ⟨a, b⟩; linarith
  have cE2 : ¬ ((2 : ℚ) = m) := by intro hc; linarith
  have cI2 : ¬ ((2 : ℚ) < m ∧ m ≤ 18/5) := by rintro ⟨a, b⟩; linarith
  have cE3 : ¬ ((4 : ℚ) = m) := by intro hc; linarith
  have cE4 : ¬ ((8 : ℚ) = m) := by intro hc; linarith
  have cI4 : ¬ ((8 : ℚ) < m ∧ m ≤ 64/5) := by rintro ⟨a, b⟩; linarith
  have cE5 : ¬ ((14 : ℚ) = m) := by intro hc; linarith
  have cI5 : ¬ ((14 : ℚ) < m ∧ m ≤ 22) := by rintro ⟨a, b⟩; linarith
  have cE6 : ¬ ((24 : ℚ) = m) := by intro hc; linarith
  have cI6 : ¬ ((24 : ℚ) < m ∧ m ≤ 44) := by rintro ⟨a, b⟩; linarith
  have e1 : decScan m none 0 ADJUSTMENT_TABLE = 4/5 := by
    rw [ADJUSTMENT_TABLE]
    rw [decScan_cons_skip _ _ _ _ _ _ _ cE0 cI0]
    rw [decScan_cons_skip _ _ _ _ _ _ _ cE1 cI1]
    rw [decScan_cons_skip _ _ _ _ _ _ _ cE2 cI2]
    rw [decScan_cons_inside _ _ _ _ _ _ _ cE3 ⟨h1, h2⟩]
    rw [decScan_noMatch]
    intro e he
    simp only [List.mem_cons, List.not_mem_nil, or_false] at he
    rcases he with rfl | rfl | rfl
    case _ => exact ⟨cE4, cI4⟩
    case _ => exact ⟨cE5, cI5⟩
    case _ => exact ⟨cE6, cI6⟩
  have hne : ¬ decScan m none 0 ADJUSTMENT_TABLE = 0 := by rw [e1]; norm_num
  rw [get_bet_decrease, if_neg hne, e1]

theorem dec_inside_4 (m : ℚ) (h1 : (8 : ℚ) < m) (h2 : m ≤ 64/5) :
    get_bet_decrease m = some (round2 (m - 6/5)) := by
  have cE0 : ¬ ((1/5 : ℚ) = m) := by intro hc; linarith
  have cI0 : ¬ ((1/5 : ℚ) < m ∧ m ≤ 9/10) := by rintro ⟨a, b⟩; linarith
  have cE1 : ¬ ((1 : ℚ) = m) := by intro hc; linarith
  have cI1 : ¬ ((1 : ℚ) < m ∧ m ≤ 9/5) := by rintro ⟨a, b⟩; linarith
  have cE2 : ¬ ((2 : ℚ) = m) := by intro hc; linarith
  have cI2 : ¬ ((2 : ℚ) < m ∧ m ≤ 18/5) := by rintro ⟨a, b⟩; linarith
  have cE3 : ¬ ((4 : ℚ) = m) := by intro hc; linarith
  have cI3 : ¬ ((4 : ℚ) < m ∧ m ≤ 36/5) := by rintro ⟨a, b⟩; linarith
  have cE4 : ¬ ((8 : ℚ) = m) := by intro hc; linarith
  have cE5 : ¬ ((14 : ℚ) = m) := by intro hc; linarith
  have cI5 : ¬ ((14 : ℚ) < m ∧ m ≤ 22) := by rintro ⟨a, b⟩; linarith
  have cE6 : ¬ ((24 : ℚ) = m) := by intro hc; linarith
  have cI6 : ¬ ((24 : ℚ) < m ∧ m ≤ 44) := by rintro ⟨a, b⟩; linarith
  have e1 : decScan m none 0 ADJUSTMENT_TABLE = 6/5 := by
    rw [ADJUSTMENT_TABLE]
    rw [decScan_cons_skip _ _ _ _ _ _ _ cE0 cI0]
    rw [decScan_cons_skip _ _ _ _ _ _ _ cE1 cI1]
    rw [decScan_cons_skip _ _ _ _ _ _ _ cE2 cI2]
    rw [decScan_cons_skip _ _ _ _ _ _ _ cE3 cI3]
    rw [decScan_cons_inside _ _ _ _ _ _ _ cE4 ⟨h1, h2⟩]
    rw [decScan_noMatch]
    intro e he
    simp only [List.mem_cons, List.not_mem_nil, or_false] at he
    rcases he with rfl | rfl
    case _ => exact ⟨cE5, cI5⟩
    case _ => exact ⟨cE6, cI6⟩
  have hne : ¬ decScan m none 0 ADJUSTMENT_TABLE = 0 := by rw [e1]; norm_num
  rw [get_bet_decrease, if_neg hne, e1]

theorem dec_inside_5 (m : ℚ) (h1 : (14 : ℚ) < m) (h2 : m ≤ 22) :
    get_bet_decrease m = some (round2 (m - 2)) := by
  have cE0 : ¬ ((1/5 : ℚ) = m) := by intro hc; linarith
  have cI0 : ¬ ((1/5 : ℚ) < m ∧ m ≤ 9/10) := by rintro ⟨a, b⟩; linarith
  have cE1 : ¬ ((1 : ℚ) = m) := by intro hc; linarith
  have cI1 : ¬ ((1 : ℚ) < m ∧ m ≤ 9/5) := by rintro ⟨a, b⟩; linarith
  have cE2 : ¬ ((2 : ℚ) = m) := by intro hc; linarith
  have cI2 : ¬ ((2 : ℚ) < m ∧ m ≤ 18/5) := by rintro ⟨a, b⟩; linarith
  have cE3 : ¬ ((4 : ℚ) = m) := by intro hc; linarith
  have cI3 : ¬ ((4 : ℚ) < m ∧ m ≤ 36/5) := by rintro ⟨a, b⟩; linarith
  have cE4 : ¬ ((8 : ℚ) = m) := by intro hc; linarith
  have cI4 : ¬ ((8 : ℚ) < m ∧ m ≤ 64/5) := by rintro ⟨a, b⟩; linarith
  have cE5 : ¬ ((14 : ℚ) = m) := by intro hc; linarith
  have cE6 : ¬ ((24 : ℚ) = m) := by intro hc; linarith
  have cI6 : ¬ ((24 : ℚ) < m ∧ m ≤ 44) := by rintro ⟨a, b⟩; linarith
  have e1 : decScan m none 0 ADJUSTMENT_TABLE = 2 := by
    rw [ADJUSTMENT_TABLE]
    rw [decScan_cons_skip _ _ _ _ _ _ _ cE0 cI0]
    rw [decScan_cons_skip _ _ _ _ _ _ _ cE1 cI1]
    rw [decScan_cons_skip _ _ _ _ _ _ _ cE2 cI2]
    rw [decScan_cons_skip _ _ _ _ _ _ _ cE3 cI3]
    rw [decScan_cons_skip _ _ _ _ _ _ _ cE4 cI4]
    rw [decScan_cons_inside _ _ _ _ _ _ _ cE5 ⟨h1, h2⟩]
    rw [decScan_noMatch]
    intro e he
    simp only [List.mem_cons, List.not_mem_nil, or_false] at he
    rcases he with rfl
    case _ => exact ⟨cE6, cI6⟩
  have hne : ¬ decScan m none 0 ADJUSTMENT_TABLE = 0 := by rw [e1]; norm_num
  rw [get_bet_decrease, if_neg hne, e1]

theorem dec_inside_6 (m : ℚ) (h1 : (24 : ℚ) < m) (h2 : m ≤ 44) :
    get_bet_decrease m = some (round2 (m - 4)) := by
  have cE0 : ¬ ((1/5 : ℚ) = m) := by intro hc; linarith
  have cI0 : ¬ ((1/5 : ℚ) < m ∧ m ≤ 9/10) := by rintro ⟨a, b⟩; linarith
  have cE1 : ¬ ((1 : ℚ) = m) := by intro hc; linarith
  have cI1 : ¬ ((1 : ℚ) < m ∧ m ≤ 9/5) := by rintro ⟨a, b⟩; linarith
  have cE2 : ¬ ((2 : ℚ) = m) := by intro hc; linarith
  have cI2 : ¬ ((2 : ℚ) < m ∧ m ≤ 18/5) := by rintro ⟨a, b⟩; linarith
  have cE3 : ¬ ((4 : ℚ) = m) := by intro hc; linarith
  have cI3 : ¬ ((4 : ℚ) < m ∧ m ≤ 36/5) := by rintro ⟨a, b⟩; linarith
  have cE4 : ¬ ((8 : ℚ) = m) := by intro hc; linarith
  have cI4 : ¬ ((8 : ℚ) < m ∧ m ≤ 64/5) := by rintro ⟨a, b⟩; linarith
  have cE5 : ¬ ((14 : ℚ) = m) := by intro hc; linarith
  have cI5 : ¬ ((14 : ℚ) < m ∧ m ≤ 22) := by rintro ⟨a, b⟩; linarith
  have cE6 : ¬ ((24 : ℚ) = m) := by intro hc; linarith
  have e1 : decScan m none 0 ADJUSTMENT_TABLE = 4 := by
    rw [ADJUSTMENT_TABLE]
    rw [decScan_cons_skip _ _ _ _ _ _ _ cE0 cI0]
    rw [decScan_cons_skip _ _ _ _ _ _ _ cE1 cI1]
    rw [decScan_cons_skip _ _ _ _ _ _ _ cE2 cI2]
    rw [decScan_cons_skip _ _ _ _ _ _ _ cE3 cI3]
    rw [decScan_cons_skip _ _ _ _ _ _ _ cE4 cI4]
    rw [decScan_cons_skip _ _ _ _ _ _ _ cE5 cI5]
    rw [decScan_cons_inside _ _ _ _ _ _ _ cE6 ⟨h1, h2⟩]
    rw [decScan_noMatch _ _ _ [] (fun e he => absurd he (List.not_mem_nil e))]
  have hne : ¬ decScan m none 0 ADJUSTMENT_TABLE = 0 := by rw [e1]; norm_num
  rw [get_bet_decrease, if_neg hne, e1]

theorem dec_boundary_1 :
    get_bet_decrease 1 = some (round2 ((1 : ℚ) - 1/10)) := by
  norm_num [get_bet_decrease, decScan, ADJUSTMENT_TABLE]

theorem dec_boundary_2 :
    get_bet_decrease 2 = some (round2 ((2 : ℚ) - 1/5)) := by
  norm_num [get_bet_decrease, decScan, ADJUSTMENT_TABLE]

theorem dec_boundary_3 :
    get_bet_decrease 4 = some (round2 ((4 : ℚ) - 2/5)) := by
  norm_num [get_bet_decrease, decScan, ADJUSTMENT_TABLE]

theorem dec_boundary_4 :
    get_bet_decrease 8 = some (round2 ((8 : ℚ) - 4/5)) := by
  norm_num [get_bet_decrease, decScan, ADJUSTMENT_TABLE]

theorem dec_boundary_5 :
    get_bet_decrease 14 = some (round2 ((14 : ℚ) - 6/5)) := by
  norm_num [get_bet_decrease, decScan, ADJUSTMENT_TABLE]

theorem dec_boundary_6 :
    get_bet_decrease 24 = some (round2 ((24 : ℚ) - 2)) := by
  norm_num [get_bet_decrease, decScan, ADJUSTMENT_TABLE]

theorem dec_value_one : get_bet_decrease 1 = some (9 / 10) := by
  rw [dec_boundary_1]
  norm_num [round2]

theorem dec_value_seven_fifths : get_bet_decrease (7 / 5) = some (6 / 5) := by
  rw [dec_inside_1 (7 / 5) (by norm_num) (by norm_num)]
  norm_num [round2]

theorem inc_value_one : get_bet_increase 1 = some (6 / 5) := by
  norm_num [get_bet_increase, get_next_bet_adjustment, adjustmentFor, ADJUSTMENT_TABLE, round2]

theorem inc_value_six_fifths : get_bet_increase (6 / 5) = some (7 / 5) := by
  norm_num [get_bet_increase, get_next_bet_adjustment, adjustmentFor, ADJUSTMENT_TABLE, round2]

theorem adjustmentFor_noMatch (m : ℚ) (l : List (ℚ × ℚ × ℚ))
    (h : ∀ e ∈ l, ¬ (e.1 ≤ m ∧ m ≤ e.2.1)) : adjustmentFor l m = none := by
  induction l with
  | nil => rfl
  | cons e rest ih =>
    obtain ⟨mn, mx, adj⟩ := e
    rw [adjustmentFor, if_neg (h (mn, mx, adj) (List.mem_cons_self _ _))]
    exact ih (fun e he => h e (List.mem_cons_of_mem _ he))

theorem range_error_core (m : ℚ)
    (h : ∀ e ∈ ADJUSTMENT_TABLE, ¬ e.1 = m ∧ ¬ (e.1 ≤ m ∧ m ≤ e.2.1)) :
    get_bet_increase m = none ∧ get_bet_decrease m = none := by
  constructor
  · rw [get_bet_increase, get_next_bet_adjustment,
        adjustmentFor_noMatch m ADJUSTMENT_TABLE (fun e he => (h e he).2)]
    rfl
  · have hz : decScan m none 0 ADJUSTMENT_TABLE = 0 :=
      decScan_noMatch m 0 none _ (fun e he =>
        ⟨(h e he).1, fun hc => (h e he).2 ⟨le_of_lt hc.1, hc.2⟩⟩)
    rw [get_bet_decrease, if_pos hz]

/-- C3: the win-side decrease is boundary-asymmetric: at a range's exact
lower bound (for every range after the first, which is what gives the rule
a previous step to use) the previous range's step is subtracted, while
strictly inside a range, its upper bound included, the range's own step is
subtracted, the result rounded to two decimals; with the implemented table,
decreasing from 1.00 yields 0.90 and decreasing from 1.40 yields 1.20. -/
theorem decrease_boundary_asymmetric (m : ℚ) (i : ℕ)
    (hi : i < ADJUSTMENT_TABLE.length) :
    (1 ≤ i → m = (ADJUSTMENT_TABLE.getD i (0, 0, 0)).1 →
       get_bet_decrease m
         = some (round2 (m - (ADJUSTMENT_TABLE.getD (i - 1) (0, 0, 0)).2.2))) ∧
    ((ADJUSTMENT_TABLE.getD i (0, 0, 0)).1 < m →
       m ≤ (ADJUSTMENT_TABLE.getD i (0, 0, 0)).2.1 →
       get_bet_decrease m
         = some (round2 (m - (ADJUSTMENT_TABLE.getD i (0, 0, 0)).2.2))) ∧
    get_bet_decrease 1 = some (9 / 10) ∧
    get_bet_decrease (7 / 5) = some (6 / 5) := by
  have hv1 := dec_value_one
  have hv2 := dec_value_seven_fifths
  have h7 : i < 7 := by simpa [ADJUSTMENT_TABLE] using hi
  interval_cases i
  · exact ⟨fun hle => absurd hle (by omega), fun ha hb => dec_inside_0 m ha hb, hv1, hv2⟩
  · refine ⟨fun hle hm => ?_, fun ha hb => dec_inside_1 m ha hb, hv1, hv2⟩
    rw [hm]
    exact dec_boundary_1
  · refine ⟨fun hle hm => ?_, fun ha hb => dec_inside_2 m ha hb, hv1, hv2⟩
    rw [hm]
    exact dec_boundary_2
  · refine ⟨fun hle hm => ?_, fun ha hb => dec_inside_3 m ha hb, hv1, hv2⟩
    rw [hm]
    exact dec_boundary_3
  · refine ⟨fun hle hm => ?_, fun ha hb => dec_inside_4 m ha hb, hv1, hv2⟩
    rw [hm]
    exact dec_boundary_4
  · refine ⟨fun hle hm => ?_, fun ha hb => dec_inside_5 m ha hb, hv1, hv2⟩
    rw [hm]
    exact dec_boundary_5
  · refine ⟨fun hle hm => ?_, fun ha hb => dec_inside_6 m ha hb, hv1, hv2⟩
    rw [hm]
    exact dec_boundary_6

/-- Witness for decrease_boundary_asymmetric: inside the second range, at
magnitude 3/2, the range's own step 0.20 is subtracted. -/
theorem decrease_boundary_asymmetric_witness :
    get_bet_decrease (3 / 2)
      = some (round2 ((3 : ℚ) / 2 - (ADJUSTMENT_TABLE.getD 1 (0, 0, 0)).2.2)) :=
  (decrease_boundary_asymmetric (3 / 2) 1 (by norm_num [ADJUSTMENT_TABLE])).2.1
    (by norm_num : (1 : ℚ) < 3 / 2) (by norm_num : (3 : ℚ) / 2 ≤ 9 / 5)

/-- C6: every magnitude strictly below the lowest range minimum 0.20,
strictly above the highest range maximum 44.00, or strictly inside one of
the gaps between consecutive ranges makes both the increase and the
decrease operation signal the range error instead of returning a value. -/
theorem adjustment_range_error (m : ℚ)
    (h : m < 1/5 ∨ 44 < m ∨ (9/10 < m ∧ m < 1) ∨ (9/5 < m ∧ m < 2) ∨
         (18/5 < m ∧ m < 4) ∨ (36/5 < m ∧ m < 8) ∨ (64/5 < m ∧ m < 14) ∨
         (22 < m ∧ m < 24)) :
    get_bet_increase m = none ∧ get_bet_decrease m = none := by
  rcases h with h1 | h1 | ⟨h1, h2⟩ | ⟨h1, h2⟩ | ⟨h1, h2⟩ | ⟨h1, h2⟩ | ⟨h1, h2⟩ | ⟨h1, h2⟩ <;>
  · refine range_error_core m ?_
    intro e he
    fin_cases he <;> dsimp only <;>
      exact ⟨fun hc => by linarith, fun hc => by obtain ⟨a, b⟩ := hc; linarith⟩

/-- Witness for adjustment_range_error in the gap at 0.95. -/
theorem adjustment_range_error_witness :
    get_bet_increase (19 / 20) = none ∧ get_bet_decrease (19 / 20) = none :=
  adjustment_range_error (19 / 20)
    (Or.inr (Or.inr (Or.inl ⟨by norm_num, by norm_num⟩)))

/-- C9: inside any table range, the loss-side increase adds the range's
step and rounds to two decimals, giving a result strictly greater than the
input; the per-range steps are the non-decreasing sequence 0.10, 0.20,
0.40, 0.80, 1.20, 2.00, 4.00; and from bet 1.00, two losses give 1.20 then
1.40, and a following win gives back 1.20. -/
theorem increase_adds_range_step (m mn mx adj : ℚ)
    (hmem : (mn, mx, adj) ∈ ADJUSTMENT_TABLE) (hlo : mn ≤ m) (hhi : m ≤ mx) :
    get_bet_increase m = some (round2 (m + adj)) ∧ m < round2 (m + adj) ∧
    ADJUSTMENT_TABLE.map (fun e => e.2.2) = [1/10, 1/5, 2/5, 4/5, 6/5, 2, 4] ∧
    List.Chain' (fun a b => a ≤ b) (ADJUSTMENT_TABLE.map (fun e => e.2.2)) ∧
    get_bet_increase 1 = some (6 / 5) ∧ get_bet_increase (6 / 5) = some (7 / 5) ∧
    get_bet_decrease (7 / 5) = some (6 / 5) := by
  have hstep : get_bet_increase m = some (round2 (m + adj)) ∧ (1 : ℚ) / 10 ≤ adj := by
    simp only [ADJUSTMENT_TABLE, List.mem_cons, List.not_mem_nil, or_false,
      Prod.mk.injEq] at hmem
    rcases hmem with h | h | h | h | h | h | h <;> obtain ⟨rfl, rfl, rfl⟩ := h
    · refine ⟨?_, by norm_num⟩
      rw [get_bet_increase, get_next_bet_adjustment, ADJUSTMENT_TABLE]
      rw [adjustmentFor, if_pos ⟨hlo, hhi⟩]
      rfl
    · refine ⟨?_, by norm_num⟩
      have dI0 : ¬ ((1/5 : ℚ) ≤ m ∧ m ≤ 9/10) := by rintro ⟨a, b⟩; linarith
      rw [get_bet_increase, get_next_bet_adjustment, ADJUSTMENT_TABLE]
      rw [adjustmentFor, if_neg dI0]
      rw [adjustmentFor, if_pos ⟨hlo, hhi⟩]
      rfl
    · refine ⟨?_, by norm_num⟩
      have dI0 : ¬ ((1/5 : ℚ) ≤ m ∧ m ≤ 9/10) := by rintro ⟨a, b⟩; linarith
      have dI1 : ¬ ((1 : ℚ) ≤ m ∧ m ≤ 9/5) := by rintro ⟨a, b⟩; linarith
      rw [get_bet_increase, get_next_bet_adjustment, ADJUSTMENT_TABLE]
      rw [adjustmentFor, if_neg dI0]
      rw [adjustmentFor, if_neg dI1]
      rw [adjustmentFor, if_pos ⟨hlo, hhi⟩]
      rfl
    · refine ⟨?_, by norm_num⟩
      have dI0 : ¬ ((1/5 : ℚ) ≤ m ∧ m ≤ 9/10) := by rintro ⟨a, b⟩; linarith
      have dI1 : ¬ ((1 : ℚ) ≤ m ∧ m ≤ 9/5) := by rintro ⟨a, b⟩; linarith
      have dI2 : ¬ ((2 : ℚ) ≤ m ∧ m ≤ 18/5) := by rintro ⟨a, b⟩; linarith
      rw [get_bet_increase, get_next_bet_adjustment, ADJUSTMENT_TABLE]
      rw [adjustmentFor, if_neg dI0]
      rw [adjustmentFor, if_neg dI1]
      rw [adjustmentFor, if_neg dI2]
      rw [adjustmentFor, if_pos ⟨hlo, hhi⟩]
      rfl
    · refine ⟨?_, by norm_num⟩
      have dI0 : ¬ ((1/5 : ℚ) ≤ m ∧ m ≤ 9/10) := by rintro ⟨a, b⟩; linarith
      have dI1 : ¬ ((1 : ℚ) ≤ m ∧ m ≤ 9/5) := by rintro ⟨a, b⟩; linarith
      have dI2 : ¬ ((2 : ℚ) ≤ m ∧ m ≤ 18/5) := by rintro ⟨a, b⟩; linarith
      have dI3 : ¬ ((4 : ℚ) ≤ m ∧ m ≤ 36/5) := by rintro ⟨a, b⟩; linarith
      rw [get_bet_increase, get_next_bet_adjustment, ADJUSTMENT_TABLE]
      rw [adjustmentFor, if_neg dI0]
      rw [adjustmentFor, if_neg dI1]
      rw [adjustmentFor, if_neg dI2]
      rw [adjustmentFor, if_neg dI3]
      rw [adjustmentFor, if_pos ⟨hlo, hhi⟩]
      rfl
    · refine ⟨?_, by norm_num⟩
      have dI0 : ¬ ((1/5 : ℚ) ≤ m ∧ m ≤ 9/10) := by rintro ⟨a, b⟩; linarith
      have dI1 : ¬ ((1 : ℚ) ≤ m ∧ m ≤ 9/5) := by rintro ⟨a, b⟩; linarith
      have dI2 : ¬ ((2 : ℚ) ≤ m ∧ m ≤ 18/5) := by rintro ⟨a, b⟩; linarith
      have dI3 : ¬ ((4 : ℚ) ≤ m ∧ m ≤ 36/5) := by rintro ⟨a, b⟩; linarith
      have dI4 : ¬ ((8 : ℚ) ≤ m ∧ m ≤ 64/5) := by rintro ⟨a, b⟩; linarith
      rw [get_bet_increase, get_next_bet_adjustment, ADJUSTMENT_TABLE]
      rw [adjustmentFor, if_neg dI0]
      rw [adjustmentFor, if_neg dI1]
      rw [adjustmentFor, if_neg dI2]
      rw [adjustmentFor, if_neg dI3]
      rw [adjustmentFor, if_neg dI4]
      rw [adjustmentFor, if_pos ⟨hlo, hhi⟩]
      rfl
    · refine ⟨?_, by norm_num⟩
      have dI0 : ¬ ((1/5 : ℚ) ≤ m ∧ m ≤ 9/10) := by rintro ⟨a, b⟩; linarith
      have dI1 : ¬ ((1 : ℚ) ≤ m ∧ m ≤ 9/5) := by rintro ⟨a, b⟩; linarith
      have dI2 : ¬ ((2 : ℚ) ≤ m ∧ m ≤ 18/5) := by rintro ⟨a, b⟩; linarith
      have dI3 : ¬ ((4 : ℚ) ≤ m ∧ m ≤ 36/5) := by rintro ⟨a, b⟩; linarith
      have dI4 : ¬ ((8 : ℚ) ≤ m ∧ m ≤ 64/5) := by rintro ⟨a, b⟩; linarith
      have dI5 : ¬ ((14 : ℚ) ≤ m ∧ m ≤ 22) := by rintro ⟨a, b⟩; linarith
      rw [get_bet_increase, get_next_bet_adjustment, ADJUSTMENT_TABLE]
      rw [adjustmentFor, if_neg dI0]
      rw [adjustmentFor, if_neg dI1]
      rw [adjustmentFor, if_neg dI2]
      rw [adjustmentFor, if_neg dI3]
      rw [adjustmentFor, if_neg dI4]
      rw [adjustmentFor, if_neg dI5]
      rw [adjustmentFor, if_pos ⟨hlo, hhi⟩]
      rfl
  have hmono : List.Chain' (fun a b : ℚ => a ≤ b)
      (ADJUSTMENT_TABLE.map (fun e => e.2.2)) := by
    norm_num [ADJUSTMENT_TABLE, List.chain'_cons, List.chain'_singleton]
  have hgt : m < round2 (m + adj) := by
    have := round2_gt (m + adj)
    have := hstep.2
    linarith
  exact ⟨hstep.1, hgt, rfl, hmono, inc_value_one, inc_value_six_fifths,
    dec_value_seven_fifths⟩

/-- Witness for increase_adds_range_step: at bet 1.00 in the second range,
one loss moves the bet to round2 of 1.20, strictly above 1.00. -/
theorem increase_adds_range_step_witness :
    get_bet_increase 1 = some (round2 ((1 : ℚ) + 1 / 5)) ∧
    (1 : ℚ) < round2 ((1 : ℚ) + 1 / 5) ∧
    ADJUSTMENT_TABLE.map (fun e => e.2.2) = [1/10, 1/5, 2/5, 4/5, 6/5, 2, 4] ∧
    List.Chain' (fun a b : ℚ => a ≤ b) (ADJUSTMENT_TABLE.map (fun e => e.2.2)) ∧
    get_bet_increase 1 = some (6 / 5) ∧ get_bet_increase (6 / 5) = some (7 / 5) ∧
    get_bet_decrease (7 / 5) = some (6 / 5) :=
  increase_adds_range_step 1 1 (9 / 5) (1 / 5)
    (by norm_num [ADJUSTMENT_TABLE]) (by norm_num) (by norm_num)

/-- One step of the streak scanner: on the target symbol the running
counter increments, and when it reaches the streak length the streak count
increments and the counter resets to zero; any other symbol resets the
counter. -/
def streakStep (k : ℕ) (st : ℕ × ℕ) (spin : Char) : ℕ × ℕ :=
  if spin = 'R' then
    if st.2 + 1 = k then (st.1 + 1, 0) else (st.1, st.2 + 1)
  else (st.1, 0)

/-- Number of non-overlapping streaks of k consecutive target symbols. -/
def count_streaks (spins : List Char) (k : ℕ) : ℕ :=
  (spins.foldl (streakStep k) (0, 0)).1

theorem streak_foldl_shift (k : ℕ) (l : List Char) (c cur : ℕ) :
    l.foldl (streakStep k) (c, cur)
      = (c + (l.foldl (streakStep k) (0, cur)).1,
         (l.foldl (streakStep k) (0, cur)).2) := by
  induction l generalizing c cur with
  | nil => simp
  | cons x t ih =>
    simp only [List.foldl_cons]
    by_cases hx : x = 'R'
    · by_cases hk : cur + 1 = k
      · have e1 : streakStep k (c, cur) x = (c + 1, 0) := by simp [streakStep, hx, hk]
        have e2 : streakStep k (0, cur) x = (1, 0) := by simp [streakStep, hx, hk]
        rw [e1, e2, ih (c + 1) 0, ih 1 0]
        refine Prod.ext ?_ rfl
        dsimp only
        omega
      · have e1 : streakStep k (c, cur) x = (c, cur + 1) := by simp [streakStep, hx, hk]
        have e2 : streakStep k (0, cur) x = (0, cur + 1) := by simp [streakStep, hx, hk]
        rw [e1, e2]
        exact ih c (cur + 1)
    · have e1 : streakStep k (c, cur) x = (c, 0) := by simp [streakStep, hx]
      have e2 : streakStep k (0, cur) x = (0, 0) := by simp [streakStep, hx]
      rw [e1, e2]
      exact ih c 0

theorem streak_foldl_replicate (k : ℕ) (hk : 0 < k) (n c cur : ℕ) (hcur : cur < k) :
    (List.replicate n 'R').foldl (streakStep k) (c, cur)
      = (c + (cur + n) / k, (cur + n) % k) := by
  induction n generalizing c cur with
  | zero =>
    simp [Nat.div_eq_of_lt hcur, Nat.mod_eq_of_lt hcur]
  | succ n ih =>
    rw [List.replicate_succ, List.foldl_cons]
    by_cases hk1 : cur + 1 = k
    · rw [show streakStep k (c, cur) 'R' = (c + 1, 0) by simp [streakStep, hk1]]
      rw [ih (c + 1) 0 hk]
      have h1 : cur + (n + 1) = n + k := by omega
      rw [h1, Nat.add_div_right n hk, Nat.add_mod_right n k]
      refine Prod.ext ?_ ?_ <;> simp only [Nat.zero_add] <;> omega
    · have hcur' : cur + 1 < k := by omega
      rw [show streakStep k (c, cur) 'R' = (c, cur + 1) by simp [streakStep, hk1]]
      rw [ih c (cur + 1) hcur']
      have h1 : cur + 1 + n = cur + (n + 1) := by omega
      rw [h1]

/-- C7: streak counting is non-overlapping: a maximal run of exactly twice
the streak length k contributes exactly two streaks to the count, a run of
k - 1 target outcomes contributes none, and the running counter resets to
zero both when it reaches k and on any non-target symbol. -/
theorem count_streaks_nonoverlapping (k : ℕ) (hk : 1 ≤ k) :
    (∀ (p s : List Char) (b b' : Char), ¬ b = 'R' → ¬ b' = 'R' →
       count_streaks (p ++ b :: (List.replicate (2 * k) 'R' ++ b' :: s)) k
         = count_streaks (p ++ [b]) k + 2 + count_streaks (b' :: s) k) ∧
    count_streaks (List.replicate (2 * k) 'R') k = 2 ∧
    count_streaks (List.replicate (k - 1) 'R') k = 0 ∧
    (∀ st : ℕ × ℕ, st.2 + 1 = k → streakStep k st 'R' = (st.1 + 1, 0)) ∧
    (∀ (st : ℕ × ℕ) (c : Char), ¬ c = 'R' → streakStep k st c = (st.1, 0)) := by
  have hk0 : 0 < k := hk
  refine ⟨?_, ?_, ?_, ?_, ?_⟩
  · intro p s b b' hb hb'
    have happ : p ++ b :: (List.replicate (2 * k) 'R' ++ b' :: s)
        = (p ++ [b]) ++ (List.replicate (2 * k) 'R' ++ b' :: s) := by
      simp
    have hA2 : (List.foldl (streakStep k) (0, 0) (p ++ [b])).2 = 0 := by
      rw [List.foldl_append]
      simp [streakStep, hb]
    have hA : List.foldl (streakStep k) (0, 0) (p ++ [b])
        = ((List.foldl (streakStep k) (0, 0) (p ++ [b])).1, 0) :=
      Prod.ext rfl hA2
    rw [count_streaks, happ, List.foldl_append, List.foldl_append, hA,
        streak_foldl_replicate k hk0 (2 * k) _ 0 hk0]
    simp only [Nat.zero_add]
    rw [Nat.mul_div_cancel 2 hk0, Nat.mul_mod_left 2 k,
        streak_foldl_shift k (b' :: s) _ 0]
    simp only [count_streaks]
  · rw [count_streaks, streak_foldl_replicate k hk0 (2 * k) 0 0 hk0]
    simp only [Nat.zero_add]
    rw [Nat.mul_div_cancel 2 hk0]
  · rw [count_streaks, streak_foldl_replicate k hk0 (k - 1) 0 0 hk0]
    simp only [Nat.zero_add]
    rw [Nat.div_eq_of_lt (by omega)]
  · intro st hst
    simp [streakStep, hst]
  · intro st c hc
    simp [streakStep, hc]

/-- Witness for count_streaks_nonoverlapping: with streak length 2, a run
of four target outcomes between non-target symbols contributes exactly two
streaks, and four consecutive targets alone count as two. -/
theorem count_streaks_nonoverlapping_witness :
    count_streaks (['B'] ++ 'G' :: (List.replicate (2 * 2) 'R' ++ 'B' :: ['R'])) 2
      = count_streaks (['B'] ++ ['G']) 2 + 2 + count_streaks ('B' :: ['R']) 2 ∧
    count_streaks (List.replicate (2 * 2) 'R') 2 = 2 :=
  ⟨(count_streaks_nonoverlapping 2 (by omega)).1 ['B'] ['R'] 'G' 'B'
      (by decide) (by decide),
   (count_streaks_nonoverlapping 2 (by omega)).2.1⟩

/-- The terminal states of a simulation run. -/
inductive StopReason where
  | bankruptcy
  | end_stop_profit
  | ext_stop_profit
  | equal_red_black_stop
  | min_bet
  | max_bet
deriving DecidableEq

/-- The number of budgeted spins per simulation. -/
def SPINS_PER_SIMULATION : ℕ := 120

/-- The bet floor at which a win-side stop or early color switch fires. -/
def MIN_BET : ℚ := 1 / 5

/-- The bet ceiling at which a loss-side stop fires. -/
def MAX_BET : ℚ := 8

/-- The per-run mutable state of the orchestrator. -/
structure RunState where
  bankroll : ℚ
  currentBetAmount : ℚ
  spinsCompleted : ℕ
  spin : ℕ
  winCount : ℕ
  lossCount : ℕ
  betColor : BetType
  betAmount : ℚ
  redCount : ℕ
  blackCount : ℕ
  zeroCount : ℕ
deriving DecidableEq

/-- The stop checks run before each bet, in source order: bankruptcy, then
the end-of-budget profit stops, then the balanced-color stop. -/
def checkStop (startingBankroll : ℚ) (s : RunState) : Option StopReason :=
  if s.bankroll < s.currentBetAmount then some StopReason.bankruptcy
  else if SPINS_PER_SIMULATION ≤ s.spin ∧ 6 < s.bankroll - startingBankroll then
    some StopReason.end_stop_profit
  else if SPINS_PER_SIMULATION ≤ s.spin ∧ s.lossCount < s.winCount then
    some StopReason.ext_stop_profit
  else if 12 ≤ s.spin ∧ s.redCount = s.blackCount ∧ startingBankroll < s.bankroll then
    some StopReason.equal_red_black_stop
  else none

/-- The early-floor color switch: before spin 12, flip the color and reset
the stake to the starting bet; from spin 12 on, no switch (a stop). -/
def min_bet_reached_switch_color (spins : ℕ) (betColor : BetType) (amount : ℚ) :
    Option (BetType × ℚ × List ℕ) :=
  if betColor = BetType.RED ∧ spins < 12 then some (BetType.BLACK, amount, [])
  else if betColor = BetType.BLACK ∧ spins < 12 then some (BetType.RED, amount, [])
  else none

/-- The end-of-iteration bookkeeping: advance the spin index, round the new
bet amount into the current bet, and apply the dominance switch to build
the next bet tuple. -/
def endOfSpin (s : RunState) (newBetAmount : ℚ) (color : BetType) :
    Option StopReason × RunState :=
  (none,
   { s with spin := s.spin + 1,
            currentBetAmount := round2 newBetAmount,
            betColor := (get_next_color_bet (s.spin + 1) (color, newBetAmount, [])
                           s.redCount s.blackCount).1,
            betAmount := (get_next_color_bet (s.spin + 1) (color, newBetAmount, [])
                           s.redCount s.blackCount).2.1 })

/-- One loop body after the stop checks: play the round on outcome o
(updating color counts, bankroll and the completed-spin counter), then
adjust the bet, possibly stopping at the floor or ceiling; none models an
exception escaping the body. -/
def playSpin (startingBet : ℚ) (o : ℕ) (s : RunState) :
    Option (Option StopReason × RunState) :=
  let s1 := if o ∈ RED_NUMBERS then { s with redCount := s.redCount + 1 }
    else if o ∈ BLACK_NUMBERS then { s with blackCount := s.blackCount + 1 }
    else { s with zeroCount := s.zeroCount + 1 }
  match calculate_payout s1.betColor s1.betAmount [] o true with
  | none => none
  | some profit =>
    let s2 := { s1 with bankroll := s1.bankroll + profit,
                        spinsCompleted := s1.spinsCompleted + 1 }
    if 0 < profit then
      match get_bet_decrease s2.currentBetAmount with
      | none => none
      | some nb =>
        let s3 := { s2 with currentBetAmount := round2 nb,
                            winCount := s2.winCount + 1 }
        if s3.currentBetAmount ≤ MIN_BET then
          match min_bet_reached_switch_color s3.spin s3.betColor startingBet with
          | none => some (some StopReason.min_bet, s3)
          | some nbets => some (endOfSpin s3 startingBet nbets.1)
        else some (endOfSpin s3 nb s3.betColor)
    else
      match get_bet_increase s2.currentBetAmount with
      | none => none
      | some nb =>
        let s3 := { s2 with currentBetAmount := round2 nb,
                            lossCount := s2.lossCount + 1 }
        if MAX_BET ≤ s3.currentBetAmount then
          some (some StopReason.max_bet, { s3 with currentBetAmount := MAX_BET })
        else some (endOfSpin s3 nb s3.betColor)

/-- The orchestrator loop: check the stop conditions, and only when none
fires play the next spin; fuel bounds the unbounded source loop and the
outcome list supplies the wheel draws. -/
def runLoop (startingBankroll startingBet : ℚ) :
    ℕ → List ℕ → RunState → Option (StopReason × RunState)
  | 0, _, _ => none
  | fuel + 1, outs, s =>
    (checkStop startingBankroll s).elim
      (match outs with
       | [] => none
       | o :: rest =>
         match playSpin startingBet o s with
         | none => none
         | some (some r, s2) => some (r, s2)
         | some (none, s2) => runLoop startingBankroll startingBet fuel rest s2)
      (fun r => some (r, s))

/-- The initial run state: full bankroll, starting bet, first bet color
chosen from the color of the first locally drawn number (black stays
black, anything else bets red). -/
def initState (startingBankroll startingBet : ℚ) (firstNumber : ℕ) : RunState :=
  { bankroll := startingBankroll, currentBetAmount := startingBet,
    spinsCompleted := 0, spin := 0, winCount := 0, lossCount := 0,
    betColor := if get_color firstNumber = BetType.BLACK then BetType.BLACK
                else BetType.RED,
    betAmount := startingBet, redCount := 0, blackCount := 0, zeroCount := 0 }

/-- One full simulation run. -/
def runSimulation (startingBankroll startingBet : ℚ) (firstNumber : ℕ)
    (outcomes : List ℕ) (fuel : ℕ) : Option (StopReason × RunState) :=
  runLoop startingBankroll startingBet fuel outcomes
    (initState startingBankroll startingBet firstNumber)

/-- C4: the stop conditions are evaluated before placing any bet in the
fixed order bankruptcy, end_stop_profit, ext_stop_profit,
equal_red_black_stop; and a run whose starting bet exceeds its starting
bankroll stops at once with reason bankruptcy, zero spins completed and
the state otherwise untouched. -/
theorem stop_precedence_and_immediate_bankruptcy :
    (∀ (sb : ℚ) (s : RunState), s.bankroll < s.currentBetAmount →
       checkStop sb s = some StopReason.bankruptcy) ∧
    (∀ (sb : ℚ) (s : RunState), ¬ s.bankroll < s.currentBetAmount →
       SPINS_PER_SIMULATION ≤ s.spin → 6 < s.bankroll - sb →
       checkStop sb s = some StopReason.end_stop_profit) ∧
    (∀ (sb : ℚ) (s : RunState), ¬ s.bankroll < s.currentBetAmount →
       ¬ (SPINS_PER_SIMULATION ≤ s.spin ∧ 6 < s.bankroll - sb) →
       SPINS_PER_SIMULATION ≤ s.spin → s.lossCount < s.winCount →
       checkStop sb s = some StopReason.ext_stop_profit) ∧
    (∀ (sb : ℚ) (s : RunState), ¬ s.bankroll < s.currentBetAmount →
       ¬ (SPINS_PER_SIMULATION ≤ s.spin ∧ 6 < s.bankroll - sb) →
       ¬ (SPINS_PER_SIMULATION ≤ s.spin ∧ s.lossCount < s.winCount) →
       12 ≤ s.spin → s.redCount = s.blackCount → sb < s.bankroll →
       checkStop sb s = some StopReason.equal_red_black_stop) ∧
    (∀ (sb sbet : ℚ) (firstNumber : ℕ) (outs : List ℕ) (fuel : ℕ),
       sb < sbet → 1 ≤ fuel →
       runSimulation sb sbet firstNumber outs fuel
         = some (StopReason.bankruptcy, initState sb sbet firstNumber) ∧
       (initState sb sbet firstNumber).spinsCompleted = 0) := by
  refine ⟨?_, ?_, ?_, ?_, ?_⟩
  · intro sb s h
    rw [checkStop, if_pos h]
  · intro sb s h1 h2 h3
    rw [checkStop, if_neg h1, if_pos ⟨h2, h3⟩]
  · intro sb s h1 h12 h2 h3
    rw [checkStop, if_neg h1, if_neg h12, if_pos ⟨h2, h3⟩]
  · intro sb s h1 h12 h13 h2 h3 h4
    rw [checkStop, if_neg h1, if_neg h12, if_neg h13, if_pos ⟨h2, h3, h4⟩]
  · intro sb sbet firstNumber outs fuel hlt hfuel
    obtain ⟨f, rfl⟩ : ∃ f, fuel = f + 1 := ⟨fuel - 1, by omega⟩
    refine ⟨?_, rfl⟩
    have hb : (initState sb sbet firstNumber).bankroll
        < (initState sb sbet firstNumber).currentBetAmount := hlt
    have hcs : checkStop sb (initState sb sbet firstNumber)
        = some StopReason.bankruptcy := by
      rw [checkStop, if_pos hb]
    rw [runSimulation]
    show (checkStop sb (initState sb sbet firstNumber)).elim
        (match outs with
         | [] => none
         | o :: rest =>
           match playSpin sbet o (initState sb sbet firstNumber) with
           | none => none
           | some (some r, s2) => some (r, s2)
           | some (none, s2) => runLoop sb sbet f rest s2)
        (fun r => some (r, initState sb sbet firstNumber))
      = some (StopReason.bankruptcy, initState sb sbet firstNumber)
    rw [hcs]
    rfl

/-- Witness for stop_precedence_and_immediate_bankruptcy: a run starting
with bankroll 1000 and bet 2000 stops immediately as bankrupt, and the
bankruptcy check dominates a state where every stop condition holds. -/
theorem stop_precedence_witness :
    checkStop 1000 (RunState.mk 500 600 0 120 5 1 BetType.RED 600 3 3 0)
      = some StopReason.bankruptcy ∧
    runSimulation 1000 2000 0 [] 1
      = some (StopReason.bankruptcy, initState 1000 2000 0) ∧
    (initState 1000 2000 0).spinsCompleted = 0 :=
  ⟨stop_precedence_and_immediate_bankruptcy.1 1000 _ (by norm_num),
   (stop_precedence_and_immediate_bankruptcy.2.2.2.2 1000 2000 0 [] 1
      (by norm_num) (by omega)).1,
   (stop_precedence_and_immediate_bankruptcy.2.2.2.2 1000 2000 0 [] 1
      (by norm_num) (by omega)).2⟩
